import Mathlib

/-! Shallow embedding of KiCad's clearance/netclass resolution core,
`pcbnew/board_connected_item.cpp` (`BOARD_CONNECTED_ITEM::SetNetCode`,
`GetEffectiveNetclass`, `GetNetClass`, `GetClearance`, `GetRuleClearance`).

Machine integers are modelled as `Int` (clearances are C++ `int`; the code
only compares and copies them, so no overflow is reachable).  Null pointers
are modelled as `Option`; a dereference of a null pointer inside a call is
modelled by the embedded function returning `none`.  The provenance
out-parameter `aSource` (a `wxString*`) only receives a human-readable label
and never influences the returned clearance, so the embedding models the
returned value; likewise `aReporter` is unused by the resolution logic. -/

/-- NETCLASS (from `class_netclass.h`, outside this excerpt): only the
baseline clearance value `GetClearance()` participates in resolution. -/
structure NETCLASS where
  clearance : Int
deriving DecidableEq

/-- NETINFO_ITEM (from `netinfo.h`, outside this excerpt): one net record.
`net` models `GetNet()`; `netClassRef` models the stored netclass reference
returned by `GetNetClass()`, with `none` standing for a null pointer. -/
structure NETINFO_ITEM where
  net : Int
  netClassRef : Option NETCLASS
deriving DecidableEq

/-- BOARD_DESIGN_SETTINGS: the board-wide scalars read by `GetClearance`
(`m_MinClearance`, `m_CopperEdgeClearance`) and the always-present Default
netclass returned by `GetDefault()`. -/
structure BOARD_DESIGN_SETTINGS where
  m_MinClearance : Int
  m_CopperEdgeClearance : Int
  defaultNetclass : NETCLASS
deriving DecidableEq

/-- BOARD: the design settings plus the net registry lookup `FindNet`
(`none` models a null result for an unknown net code). -/
structure BOARD where
  designSettings : BOARD_DESIGN_SETTINGS
  findNet : Int → Option NETINFO_ITEM

/-- PCB_LAYER_ID: only `Edge_Cuts` is distinguished by the resolution code;
all other layers are collapsed into `other`. -/
inductive PCB_LAYER_ID where
  | Edge_Cuts : PCB_LAYER_ID
  | other : Nat → PCB_LAYER_ID
deriving DecidableEq

/-- BOARD_CONNECTED_ITEM state: `board` models `GetBoard()`, `m_netinfo` the
(nullable) net-record pointer, `localClearanceOverrides` the value returned
by the virtual `GetLocalClearanceOverrides`, `localClearance` the value
returned by the virtual `GetLocalClearance`, `onCopperLayer` the result of
`IsOnCopperLayer()`, and `m_Layer` the item's layer (`GetLayer()`). -/
structure BOARD_CONNECTED_ITEM where
  board : Option BOARD
  m_netinfo : Option NETINFO_ITEM
  localClearanceOverrides : Int
  localClearance : Int
  onCopperLayer : Bool
  m_Layer : PCB_LAYER_ID

/-- BOARD_ITEM as consumed by `GetClearance`: its layer (`GetLayer()`), and
the result of the `dynamic_cast<BOARD_CONNECTED_ITEM*>` performed at line 90
(`none` when the second item is not a net-bearing connected item). -/
structure BOARD_ITEM where
  m_Layer : PCB_LAYER_ID
  connected : Option BOARD_CONNECTED_ITEM

/-- Upcast of a connected item to BOARD_ITEM (the C++ subclass relation):
the downcast on such an item succeeds and yields the item itself. -/
def toBoardItem (i : BOARD_CONNECTED_ITEM) : BOARD_ITEM :=
  { m_Layer := i.m_Layer, connected := some i }

/-- Modelled from the spec: `NETINFO_LIST::OrphanedItem()` (from `netinfo.h`,
missing from this excerpt) — the process-wide sentinel net record "used for
items with no net, net code 0, or a forced-orphan code" (spec section 3); it
carries no real netclass behind it. -/
def ORPHANED : NETINFO_ITEM :=
  { net := 0, netClassRef := none }

/-- SetNetCode (`board_connected_item.cpp` lines 40-60).  The `aNoAssert`
parameter only controls a `wxASSERT` and is omitted; the returned `Bool` is
the C++ return value `m_netinfo != NULL`. -/
def SetNetCode (i : BOARD_CONNECTED_ITEM) (aNetCodeIn : Int) :
    BOARD_CONNECTED_ITEM × Bool :=
  let aNetCode : Int := if i.onCopperLayer then aNetCodeIn else 0
  let newNetinfo : Option NETINFO_ITEM :=
    match i.board with
    | some board => if 0 ≤ aNetCode then board.findNet aNetCode else some ORPHANED
    | none => some ORPHANED
  ({ i with m_netinfo := newNetinfo }, newNetinfo.isSome)

/-- GetNetClass (lines 177-185): the stored netclass when non-null, else the
board's default netclass.  `none` models the null-pointer dereference the C++
performs when the fallback runs with a null board, or when `m_netinfo` itself
is null. -/
def GetNetClass (i : BOARD_CONNECTED_ITEM) : Option NETCLASS :=
  match i.m_netinfo with
  | none => none
  | some ni =>
      match ni.netClassRef with
      | some nc => some nc
      | none => Option.map (fun bd => bd.designSettings.defaultNetclass) i.board

/-- GetEffectiveNetclass (lines 64-72): the Default netclass for net code 0,
otherwise `GetNetClass`.  `none` models a null-pointer dereference (null
`m_netinfo`, or a null board reached on either branch). -/
def GetEffectiveNetclass (i : BOARD_CONNECTED_ITEM) : Option NETCLASS :=
  match i.m_netinfo with
  | none => none
  | some ni =>
      if ni.net = 0 then
        Option.map (fun bd => bd.designSettings.defaultNetclass) i.board
      else
        GetNetClass i

/-- DRC_CONSTRAINT (from `drc_rule.h`, outside this excerpt): only the
minimum bound `m_Value.Min()` of a clearance constraint is consumed here. -/
structure DRC_CONSTRAINT where
  m_Value_Min : Int
deriving DecidableEq

/-- Modelled from the spec: the external rule engine's `GetConstraint` for
`DRC_CONSTRAINT_TYPE_CLEARANCE` queries (spec section 4.2, `findClearanceRule`):
the board's pre-ordered rule list is consulted and the first matching
clearance rule's constraint is returned, `none` when no rule matches.  Rule
ordering and selector matching are outside this core ("pre-ordered by
priority/specificity at rule-compile time, outside this core's
responsibility"), so the whole query is abstracted as one function of
(itemA, itemB, layer). -/
abbrev RULE_QUERY : Type :=
  BOARD_CONNECTED_ITEM → Option BOARD_ITEM → PCB_LAYER_ID → Option DRC_CONSTRAINT

/-- GetRuleClearance (lines 155-172): query the rule engine; on a match
return the constraint's minimum bound (the `aSource` formatting at line 164
only affects the label). -/
def GetRuleClearance (rules : RULE_QUERY) (self : BOARD_CONNECTED_ITEM)
    (aItem : Option BOARD_ITEM) (aLayer : PCB_LAYER_ID) : Option Int :=
  match rules self aItem aLayer with
  | some constraint => some constraint.m_Value_Min
  | none => none

/-- Compare-and-replace step used throughout `GetClearance`: the C++
statement pattern `if( x > clearance ) clearance = x;` (a candidate replaces
the running value only when strictly greater). -/
def bump (clearance x : Int) : Int :=
  if x > clearance then x else clearance

/-- GetClearance (lines 83-152), the three-level cascade.  The successive
`c1 .. c8` name the value of the C++ `clearance` variable after each
compare-and-replace step (`bump`), in source order:
level 1 overrides (lines 98-102), the early return `if( clearance )`
(lines 104-110), the rule query (lines 112-115), then level 3: board minimum
(123-129), first item's effective netclass (131-132), second item's effective
netclass (134-135), copper-edge clearance when the second item lies on
`Edge_Cuts` (137-143), and both items' plain local clearances (145-149).
`none` models the null dereference the C++ would perform if an effective
netclass were unresolvable (null `m_netinfo`, or a second item carrying no
board); every ordinary execution returns `some`. -/
def GetClearance (rules : RULE_QUERY) (self : BOARD_CONNECTED_ITEM)
    (aLayer : PCB_LAYER_ID) (aItem : Option BOARD_ITEM) : Option Int :=
  let second : Option BOARD_CONNECTED_ITEM := Option.bind aItem BOARD_ITEM.connected
  match self.board with
  | none => some 0
  | some board =>
      let c1 : Int := bump 0 self.localClearanceOverrides
      let c2 : Int :=
        match second with
        | some s => bump c1 s.localClearanceOverrides
        | none => c1
      if c2 ≠ 0 then
        some c2
      else
        match GetRuleClearance rules self aItem aLayer with
        | some ruleClearance => some ruleClearance
        | none =>
            let bds := board.designSettings
            let netclassO : Option NETCLASS := GetEffectiveNetclass self
            let secondNetclassO : Option (Option NETCLASS) :=
              match second with
              | some s => Option.map some (GetEffectiveNetclass s)
              | none => some none
            match netclassO, secondNetclassO with
            | some netclass, some sncPtr =>
                let c3 : Int := bump c2 bds.m_MinClearance
                let c4 : Int := bump c3 netclass.clearance
                let c5 : Int :=
                  match sncPtr with
                  | some snc => bump c4 snc.clearance
                  | none => c4
                let c6 : Int :=
                  match aItem with
                  | some itemB =>
                      if itemB.m_Layer = PCB_LAYER_ID.Edge_Cuts ∧
                          bds.m_CopperEdgeClearance > c5 then
                        bds.m_CopperEdgeClearance
                      else c5
                  | none => c5
                let c7 : Int := bump c6 self.localClearance
                let c8 : Int :=
                  match second with
                  | some s => bump c7 s.localClearance
                  | none => c7
                some c8
            | _, _ => none

/-- Concrete board fixture (spec section 8 scenario values: board minimum 150,
copper-edge clearance 250, default netclass clearance 0) used by the witness
theorems. -/
def exSettings : BOARD_DESIGN_SETTINGS :=
  { m_MinClearance := 150, m_CopperEdgeClearance := 250,
    defaultNetclass := { clearance := 0 } }

/-- Concrete board fixture wrapping `exSettings`; its net registry is empty. -/
def exBoard : BOARD :=
  { designSettings := exSettings, findNet := fun _ => none }

/-- Concrete connected item on a copper layer with netclass clearance 200. -/
def exItemA : BOARD_CONNECTED_ITEM :=
  { board := some exBoard,
    m_netinfo := some { net := 1, netClassRef := some { clearance := 200 } },
    localClearanceOverrides := 0, localClearance := 0,
    onCopperLayer := true, m_Layer := PCB_LAYER_ID.other 0 }

/-- Concrete connected item on the `Edge_Cuts` layer with netclass
clearance 180. -/
def exItemB : BOARD_CONNECTED_ITEM :=
  { board := some exBoard,
    m_netinfo := some { net := 2, netClassRef := some { clearance := 180 } },
    localClearanceOverrides := 0, localClearance := 0,
    onCopperLayer := true, m_Layer := PCB_LAYER_ID.Edge_Cuts }

/-- Rule query fixture under which no design rule ever matches. -/
def noRules : RULE_QUERY := fun _ _ _ => none

/-- Statement-side combinator: the item re-attached to the given board, used
to express "two runs over boards differing only in one setting, all other
item state equal". -/
def withBoard (bd : BOARD) (i : BOARD_CONNECTED_ITEM) : BOARD_CONNECTED_ITEM :=
  { i with board := some bd }

/-- Statement-side combinator: an optional packed second item (connected item
plus its effective netclass), re-attached to the given board and upcast to a
BOARD_ITEM argument for `GetClearance`. -/
def packItem (bd : BOARD) (bPack : Option (BOARD_CONNECTED_ITEM × NETCLASS)) :
    Option BOARD_ITEM :=
  Option.map (fun p => toBoardItem (withBoard bd p.1)) bPack

/-- Statement-side combinator: the board assembled from the given settings
and registry with its minimum clearance replaced by `m` — two such boards
with different `m` differ in the board minimum clearance and nothing else. -/
def minBoard (ds : BOARD_DESIGN_SETTINGS) (f : Int → Option NETINFO_ITEM)
    (m : Int) : BOARD :=
  { designSettings := { ds with m_MinClearance := m }, findNet := f }

theorem bump_eq_max (c x : Int) : bump c x = max c x := by
  unfold bump
  split_ifs <;> omega

theorem toBoardItem_connected (i : BOARD_CONNECTED_ITEM) :
    (toBoardItem i).connected = some i := rfl

theorem toBoardItem_layer (i : BOARD_CONNECTED_ITEM) :
    (toBoardItem i).m_Layer = i.m_Layer := rfl

set_option maxHeartbeats 1000000 in
theorem getClearance_accum_eval
    (rules : RULE_QUERY) (a : BOARD_CONNECTED_ITEM) (aLayer : PCB_LAYER_ID)
    (bd : BOARD) (nc : NETCLASS) (bPack : Option (BOARD_CONNECTED_ITEM × NETCLASS))
    (hb : a.board = some bd)
    (hnc : GetEffectiveNetclass a = some nc)
    (hov : a.localClearanceOverrides ≤ 0)
    (hB : ∀ p, bPack = some p →
      GetEffectiveNetclass p.1 = some p.2 ∧ p.1.localClearanceOverrides ≤ 0)
    (hrule : rules a (Option.map (fun p => toBoardItem p.1) bPack) aLayer = none) :
    GetClearance rules a aLayer (Option.map (fun p => toBoardItem p.1) bPack) =
      some (max (max (max (max (max (max 0 bd.designSettings.m_MinClearance)
            nc.clearance)
            (Option.elim bPack 0 (fun p => (p.2).clearance)))
            (Option.elim bPack 0 (fun p =>
              if (p.1).m_Layer = PCB_LAYER_ID.Edge_Cuts
              then bd.designSettings.m_CopperEdgeClearance else 0)))
            a.localClearance)
          (Option.elim bPack 0 (fun p => (p.1).localClearance))) := by
  cases bPack with
  | none =>
      simp only [Option.map_none'] at hrule
      unfold GetClearance
      simp only [Option.map_none', Option.none_bind, hb, GetRuleClearance, hrule, hnc,
        Option.elim_none, bump_eq_max]
      split_ifs <;> simp only [Option.some.injEq] <;> omega
  | some p =>
      obtain ⟨s, snc⟩ := p
      have hsnc : GetEffectiveNetclass s = some snc := (hB (s, snc) rfl).1
      have hovS : s.localClearanceOverrides ≤ 0 := (hB (s, snc) rfl).2
      simp only [Option.map_some'] at hrule ⊢
      simp only [Option.elim_some]
      unfold GetClearance
      simp only [Option.some_bind, toBoardItem_connected, toBoardItem_layer, hb,
        GetRuleClearance, hrule, hnc, hsnc, Option.map_some', bump_eq_max]
      by_cases hL : s.m_Layer = PCB_LAYER_ID.Edge_Cuts
      · simp only [hL, eq_self_iff_true, if_true, true_and]
        split_ifs <;> simp only [Option.some.injEq] <;> omega
      · simp only [hL, false_and, if_false]
        split_ifs <;> simp only [Option.some.injEq] <;> omega

theorem getClearance_override_eval
    (rules : RULE_QUERY) (a : BOARD_CONNECTED_ITEM) (aLayer : PCB_LAYER_ID)
    (bd : BOARD) (aItem : Option BOARD_ITEM)
    (hb : a.board = some bd)
    (hpos : 0 < max a.localClearanceOverrides
      (Option.elim (Option.bind aItem BOARD_ITEM.connected) 0
        (fun s => s.localClearanceOverrides))) :
    GetClearance rules a aLayer aItem =
      some (max a.localClearanceOverrides
        (Option.elim (Option.bind aItem BOARD_ITEM.connected) 0
          (fun s => s.localClearanceOverrides))) := by
  unfold GetClearance
  rcases hsec : Option.bind aItem BOARD_ITEM.connected with _ | s
  · rw [hsec] at hpos
    simp only [Option.elim_none, bump_eq_max, hb] at hpos ⊢
    split_ifs with h
    · simp only [Option.some.injEq]
      omega
    · omega
  · rw [hsec] at hpos
    simp only [Option.elim_some, bump_eq_max, hb] at hpos ⊢
    split_ifs with h
    · simp only [Option.some.injEq]
      omega
    · omega

theorem getClearance_rule_eval
    (rules : RULE_QUERY) (a : BOARD_CONNECTED_ITEM) (aLayer : PCB_LAYER_ID)
    (bd : BOARD) (aItem : Option BOARD_ITEM) (constraint : DRC_CONSTRAINT)
    (hb : a.board = some bd)
    (hov : a.localClearanceOverrides ≤ 0)
    (hovS : ∀ s, Option.bind aItem BOARD_ITEM.connected = some s →
      s.localClearanceOverrides ≤ 0)
    (hrule : rules a aItem aLayer = some constraint) :
    GetClearance rules a aLayer aItem = some constraint.m_Value_Min := by
  unfold GetClearance
  rcases hsec : Option.bind aItem BOARD_ITEM.connected with _ | s
  · simp only [bump_eq_max, hb, GetRuleClearance, hrule]
    split_ifs with h
    · omega
    · rfl
  · have hs := hovS s hsec
    simp only [bump_eq_max, hb, GetRuleClearance, hrule]
    split_ifs with h
    · omega
    · rfl

/-- C9: for every item with no owning board, `GetClearance` returns
clearance 0 immediately and without error, for any rule set, second item and
layer (the provenance request only affects the label, never the value, and is
abstracted away by the embedding). -/
theorem c9_no_board_returns_zero (rules : RULE_QUERY) (a : BOARD_CONNECTED_ITEM)
    (aLayer : PCB_LAYER_ID) (aItem : Option BOARD_ITEM)
    (hb : a.board = none) :
    GetClearance rules a aLayer aItem = some 0 := by
  unfold GetClearance
  simp only [hb]

/-- Witness for C9: a concrete boardless item with positive override and local
clearance, queried against a concrete `Edge_Cuts` second item, yields 0. -/
theorem c9_no_board_returns_zero_witness :
    GetClearance noRules
      { board := none, m_netinfo := some { net := 1, netClassRef := none },
        localClearanceOverrides := 5, localClearance := 7,
        onCopperLayer := true, m_Layer := PCB_LAYER_ID.other 0 }
      (PCB_LAYER_ID.other 0)
      (some { m_Layer := PCB_LAYER_ID.Edge_Cuts, connected := none }) = some 0 :=
  c9_no_board_returns_zero noRules _ _ _ rfl

/-- C4: for every item attached to a board (with a non-null net record, as
established by the constructor), `GetEffectiveNetclass` returns the board's
Default netclass whenever the net code is zero — even if the stored netclass
reference is some other non-null netclass — and otherwise returns the net's
stored netclass when present, falling back to the Default netclass when that
reference is null; it never returns null given a valid board reference. -/
theorem c4_effective_netclass_resolution
    (i : BOARD_CONNECTED_ITEM) (bd : BOARD) (ni : NETINFO_ITEM)
    (hb : i.board = some bd) (hni : i.m_netinfo = some ni) :
    GetEffectiveNetclass i =
      some (if ni.net = 0 then bd.designSettings.defaultNetclass
            else Option.getD ni.netClassRef bd.designSettings.defaultNetclass) := by
  unfold GetEffectiveNetclass GetNetClass
  simp only [hni, hb, Option.map_some']
  by_cases h0 : ni.net = 0
  · simp [h0]
  · cases hr : ni.netClassRef <;> simp [h0, hr]

/-- Witness for C4: a concrete net-code-zero item whose stored netclass
reference is a non-default netclass (clearance 999) still resolves to the
board's Default netclass (clearance 0). -/
theorem c4_effective_netclass_resolution_witness :
    GetEffectiveNetclass
      { board := some exBoard,
        m_netinfo := some { net := 0, netClassRef := some { clearance := 999 } },
        localClearanceOverrides := 0, localClearance := 0,
        onCopperLayer := true, m_Layer := PCB_LAYER_ID.other 0 } =
      some (if (0 : Int) = 0 then exBoard.designSettings.defaultNetclass
            else Option.getD (some { clearance := 999 })
              exBoard.designSettings.defaultNetclass) :=
  c4_effective_netclass_resolution _ exBoard _ rfl rfl

/-- C5: for every item whose copper-layer membership is empty
(`IsOnCopperLayer()` false), `SetNetCode` with any net code behaves exactly
like `SetNetCode` with the sentinel orphaned net code 0 (the code coerces the
requested code to 0 before resolving): the resulting states are equal, the
resolved net record is the orphaned sentinel (given that the registry maps
code 0 to it, or that there is no board), and `GetEffectiveNetclass` and
`GetClearance` on the result coincide with those of an item explicitly
assigned the orphaned net code. -/
theorem c5_non_copper_resolves_orphaned
    (i : BOARD_CONNECTED_ITEM) (n : Int) (h : i.onCopperLayer = false) :
    SetNetCode i n = SetNetCode i 0 ∧
    (∀ bd, i.board = some bd → bd.findNet 0 = some ORPHANED →
      ((SetNetCode i n).1).m_netinfo = some ORPHANED) ∧
    (i.board = none → ((SetNetCode i n).1).m_netinfo = some ORPHANED) ∧
    (∀ rules aLayer aItem,
      GetClearance rules ((SetNetCode i n).1) aLayer aItem =
        GetClearance rules ((SetNetCode i 0).1) aLayer aItem) ∧
    GetEffectiveNetclass ((SetNetCode i n).1) =
      GetEffectiveNetclass ((SetNetCode i 0).1) := by
  have key : SetNetCode i n = SetNetCode i 0 := by
    unfold SetNetCode
    simp [h]
  refine ⟨key, ?_, ?_, fun rules aLayer aItem => by rw [key], by rw [key]⟩
  · intro bd hbd hfind
    unfold SetNetCode
    simp [h, hbd, hfind]
  · intro hbd
    unfold SetNetCode
    simp [h, hbd]

/-- Witness for C5: a concrete non-copper item (on a board whose registry
maps net code 0 to the orphaned sentinel) given net code 42 lands on the
orphaned sentinel and behaves like the explicit code-0 assignment. -/
theorem c5_non_copper_resolves_orphaned_witness :
    SetNetCode
      { board := some { designSettings := exSettings, findNet := fun _ => some ORPHANED },
        m_netinfo := some { net := 7, netClassRef := none },
        localClearanceOverrides := 0, localClearance := 0,
        onCopperLayer := false, m_Layer := PCB_LAYER_ID.Edge_Cuts } 42 =
    SetNetCode
      { board := some { designSettings := exSettings, findNet := fun _ => some ORPHANED },
        m_netinfo := some { net := 7, netClassRef := none },
        localClearanceOverrides := 0, localClearance := 0,
        onCopperLayer := false, m_Layer := PCB_LAYER_ID.Edge_Cuts } 0 ∧
    ((SetNetCode
      { board := some { designSettings := exSettings, findNet := fun _ => some ORPHANED },
        m_netinfo := some { net := 7, netClassRef := none },
        localClearanceOverrides := 0, localClearance := 0,
        onCopperLayer := false, m_Layer := PCB_LAYER_ID.Edge_Cuts } 42).1).m_netinfo =
      some ORPHANED := by
  have h := c5_non_copper_resolves_orphaned
    { board := some { designSettings := exSettings, findNet := fun _ => some ORPHANED },
      m_netinfo := some { net := 7, netClassRef := none },
      localClearanceOverrides := 0, localClearance := 0,
      onCopperLayer := false, m_Layer := PCB_LAYER_ID.Edge_Cuts } 42 rfl
  exact ⟨h.1, h.2.1 _ rfl rfl⟩

/-- C2: for every pair of connected items whose first item is attached to a
board, if the maximum of the two local clearance overrides is strictly
positive then `GetClearance` returns that maximum immediately — for every
rule set (so even when a matching design rule would give a larger value) and
for all netclass and board defaults (which are quantified inside the items
and board and never consulted on this path). -/
theorem c2_local_override_wins
    (rules : RULE_QUERY) (a s : BOARD_CONNECTED_ITEM) (aLayer : PCB_LAYER_ID)
    (bd : BOARD) (hb : a.board = some bd)
    (hpos : 0 < max a.localClearanceOverrides s.localClearanceOverrides) :
    GetClearance rules a aLayer (some (toBoardItem s)) =
      some (max a.localClearanceOverrides s.localClearanceOverrides) :=
  getClearance_override_eval rules a aLayer bd (some (toBoardItem s)) hb hpos

/-- Witness for C2: a concrete item with local override 100 paired with an
item with override 40, under a rule set that matches with value 1000 and a
board minimum of 150 and netclass clearance 200, still yields 100. -/
theorem c2_local_override_wins_witness :
    GetClearance (fun _ _ _ => some { m_Value_Min := 1000 })
      { exItemA with localClearanceOverrides := 100 } (PCB_LAYER_ID.other 0)
      (some (toBoardItem { exItemB with localClearanceOverrides := 40 })) =
      some (max 100 40) :=
  c2_local_override_wins (fun _ _ _ => some { m_Value_Min := 1000 })
    { exItemA with localClearanceOverrides := 100 }
    { exItemB with localClearanceOverrides := 40 }
    (PCB_LAYER_ID.other 0) exBoard rfl (by decide)

/-- C3: for every item attached to a board with no strictly positive local
clearance override on either side, if the rule engine yields a clearance
constraint for (itemA, itemB, layer) then `GetClearance` returns that
constraint's minimum bound — independent of every netclass and board default
(which are quantified inside the items and board), so Level 3 is never
consulted even when it would be larger. -/
theorem c3_rule_short_circuits_level3
    (rules : RULE_QUERY) (a : BOARD_CONNECTED_ITEM) (aLayer : PCB_LAYER_ID)
    (bd : BOARD) (aItem : Option BOARD_ITEM) (constraint : DRC_CONSTRAINT)
    (hb : a.board = some bd)
    (hov : a.localClearanceOverrides ≤ 0)
    (hovS : ∀ s, Option.bind aItem BOARD_ITEM.connected = some s →
      s.localClearanceOverrides ≤ 0)
    (hrule : rules a aItem aLayer = some constraint) :
    GetClearance rules a aLayer aItem = some constraint.m_Value_Min :=
  getClearance_rule_eval rules a aLayer bd aItem constraint hb hov hovS hrule

/-- Witness for C3: a rule with value 50 wins over netclass clearances 200 and
180, a board minimum of 150 and a copper-edge clearance of 250 with the
second item on `Edge_Cuts` (Level 3 would give 250): the result is 50. -/
theorem c3_rule_short_circuits_level3_witness :
    GetClearance (fun _ _ _ => some { m_Value_Min := 50 }) exItemA
      (PCB_LAYER_ID.other 0) (some (toBoardItem exItemB)) = some 50 :=
  c3_rule_short_circuits_level3 (fun _ _ _ => some { m_Value_Min := 50 })
    exItemA (PCB_LAYER_ID.other 0) exBoard (some (toBoardItem exItemB))
    { m_Value_Min := 50 } rfl (by decide)
    (fun s hs => by injection hs with h; rw [← h]; decide) rfl

/-- C1: for every item pair (second item optional) where neither item has a
strictly positive local clearance override and the rule engine matches no
rule, `GetClearance` returns exactly the maximum of: zero, the board minimum
clearance, itemA's effective netclass clearance, itemB's effective netclass
clearance (when itemB is present), the board copper-edge clearance (only when
itemB is present and its layer is `Edge_Cuts`), itemA's non-override local
clearance, and itemB's non-override local clearance (when present); the code
walks these candidates in that fixed order, `bump`ing the running value only
when a candidate is strictly greater, which computes this maximum. -/
theorem c1_level3_accumulated_max
    (rules : RULE_QUERY) (a : BOARD_CONNECTED_ITEM) (aLayer : PCB_LAYER_ID)
    (bd : BOARD) (nc : NETCLASS) (bPack : Option (BOARD_CONNECTED_ITEM × NETCLASS))
    (hb : a.board = some bd)
    (hnc : GetEffectiveNetclass a = some nc)
    (hov : a.localClearanceOverrides ≤ 0)
    (hB : ∀ p, bPack = some p →
      GetEffectiveNetclass p.1 = some p.2 ∧ p.1.localClearanceOverrides ≤ 0)
    (hrule : rules a (Option.map (fun p => toBoardItem p.1) bPack) aLayer = none) :
    GetClearance rules a aLayer (Option.map (fun p => toBoardItem p.1) bPack) =
      some (max (max (max (max (max (max 0 bd.designSettings.m_MinClearance)
            nc.clearance)
            (Option.elim bPack 0 (fun p => (p.2).clearance)))
            (Option.elim bPack 0 (fun p =>
              if (p.1).m_Layer = PCB_LAYER_ID.Edge_Cuts
              then bd.designSettings.m_CopperEdgeClearance else 0)))
            a.localClearance)
          (Option.elim bPack 0 (fun p => (p.1).localClearance))) :=
  getClearance_accum_eval rules a aLayer bd nc bPack hb hnc hov hB hrule

/-- Witness for C1: the spec section 8 scenario — board minimum 150, netclass
clearances 200 and 180, second item on `Edge_Cuts`, copper-edge clearance
250, no rules and no overrides — accumulates to 250. -/
theorem c1_level3_accumulated_max_witness :
    GetClearance noRules exItemA (PCB_LAYER_ID.other 0)
      (some (toBoardItem exItemB)) = some 250 := by
  have h := c1_level3_accumulated_max noRules exItemA (PCB_LAYER_ID.other 0)
    exBoard { clearance := 200 } (some (exItemB, { clearance := 180 }))
    rfl rfl (by decide)
    (fun p hp => by injection hp with h2; rw [← h2]; exact ⟨rfl, by decide⟩) rfl
  exact h

/-- Counterexample for C6 as stated: a clearance rule whose minimum bound is
negative is returned unchanged by the Level-2 rule path, so `GetClearance`
returns a negative clearance (-25) on a concrete input. -/
theorem c6_counterexample :
    GetClearance (fun _ _ _ => some { m_Value_Min := -25 }) exItemA
      (PCB_LAYER_ID.other 0) none = some (-25) ∧ ¬ (0 : Int) ≤ -25 :=
  ⟨rfl, by decide⟩

/-- C6 (amended): `GetClearance` returns a non-negative clearance on every
path, provided the minimum bound of any matching clearance rule is
non-negative — the Level-1 and Level-3 paths are intrinsically non-negative,
but the Level-2 rule path returns the rule's minimum bound unchanged, so its
sign is whatever the rule engine supplies. -/
theorem c6_nonneg_unless_negative_rule
    (rules : RULE_QUERY) (a : BOARD_CONNECTED_ITEM) (aLayer : PCB_LAYER_ID)
    (aItem : Option BOARD_ITEM)
    (hrule : ∀ c, rules a aItem aLayer = some c → 0 ≤ c.m_Value_Min) :
    ∀ v, GetClearance rules a aLayer aItem = some v → 0 ≤ v := by
  unfold GetClearance GetRuleClearance
  simp only [bump_eq_max]
  rcases hb : a.board with _ | bd <;> dsimp only
  · intro v hv
    simp only [Option.some.injEq] at hv
    omega
  · rcases aItem with _ | bi
    · simp only [Option.none_bind]
      rcases hr : rules a none aLayer with _ | constraint <;> dsimp only
      · rcases hna : GetEffectiveNetclass a with _ | nc <;> (try dsimp only)
        · intro v hv
          split_ifs at hv
          simp only [Option.some.injEq] at hv
          omega
        · intro v hv
          split_ifs at hv <;> simp only [Option.some.injEq] at hv <;> omega
      · have hc := hrule constraint hr
        intro v hv
        split_ifs at hv <;> simp only [Option.some.injEq] at hv <;> omega
    · obtain ⟨lay, conn⟩ := bi
      rcases conn with _ | s
      · simp only [Option.some_bind]
        rcases hr : rules a (some { m_Layer := lay, connected := none }) aLayer
          with _ | constraint <;> dsimp only
        · rcases hna : GetEffectiveNetclass a with _ | nc <;> (try dsimp only)
          · intro v hv
            split_ifs at hv
            simp only [Option.some.injEq] at hv
            omega
          · by_cases hL : lay = PCB_LAYER_ID.Edge_Cuts <;>
              simp only [hL, eq_self_iff_true, true_and, false_and, if_true,
                if_false] <;>
              intro v hv <;> split_ifs at hv <;>
              simp only [Option.some.injEq] at hv <;> omega
        · have hc := hrule constraint hr
          intro v hv
          split_ifs at hv <;> simp only [Option.some.injEq] at hv <;> omega
      · simp only [Option.some_bind]
        rcases hr : rules a (some { m_Layer := lay, connected := some s }) aLayer
          with _ | constraint <;> dsimp only
        · rcases hna : GetEffectiveNetclass a with _ | nc <;> (try dsimp only)
          · intro v hv
            split_ifs at hv
            simp only [Option.some.injEq] at hv
            omega
          · rcases hns : GetEffectiveNetclass s with _ | snc <;>
              simp only [Option.map_some', Option.map_none']
            · intro v hv
              split_ifs at hv
              simp only [Option.some.injEq] at hv
              omega
            · by_cases hL : lay = PCB_LAYER_ID.Edge_Cuts <;>
                simp only [hL, eq_self_iff_true, true_and, false_and, if_true,
                  if_false] <;>
                intro v hv <;> split_ifs at hv <;>
                simp only [Option.some.injEq] at hv <;> omega
        · have hc := hrule constraint hr
          intro v hv
          split_ifs at hv <;> simp only [Option.some.injEq] at hv <;> omega

/-- Witness for C6 (amended): with no matching rule, the concrete result 200
is non-negative. -/
theorem c6_nonneg_unless_negative_rule_witness :
    GetClearance noRules exItemA (PCB_LAYER_ID.other 0) none = some 200 ∧
      (0 : Int) ≤ 200 :=
  ⟨rfl, c6_nonneg_unless_negative_rule noRules exItemA (PCB_LAYER_ID.other 0) none
    (fun _ hc => Option.noConfusion hc) 200 rfl⟩

/-- Counterexample for C7 as stated: two connected items attached to the same
board, neither with a positive override and with no rule matching in either
direction, for which swapping the roles changes the Level-3 result: with
`exItemB` (layer `Edge_Cuts`) as second item the copper-edge clearance 250
participates, with `exItemA` (not on `Edge_Cuts`) as second item it does not,
giving 250 versus 200. -/
theorem c7_counterexample :
    exItemA.board = some exBoard ∧ exItemB.board = some exBoard ∧
    exItemA.localClearanceOverrides ≤ 0 ∧ exItemB.localClearanceOverrides ≤ 0 ∧
    noRules exItemA (some (toBoardItem exItemB)) (PCB_LAYER_ID.other 0) = none ∧
    noRules exItemB (some (toBoardItem exItemA)) (PCB_LAYER_ID.other 0) = none ∧
    GetClearance noRules exItemA (PCB_LAYER_ID.other 0)
      (some (toBoardItem exItemB)) = some 250 ∧
    GetClearance noRules exItemB (PCB_LAYER_ID.other 0)
      (some (toBoardItem exItemA)) = some 200 ∧
    (250 : Int) ≠ 200 :=
  ⟨rfl, rfl, by decide, by decide, rfl, rfl, rfl, rfl, by decide⟩

/-- C7 (amended): for every pair of connected items attached to the same
board, with neither override strictly positive and no rule matching in either
direction, swapping the roles of itemA and itemB yields the same accumulated
Level-3 clearance, provided the two items agree on `Edge_Cuts` membership
(the copper-edge candidate keys on the second item's layer, so a pair with
exactly one item on `Edge_Cuts` can resolve asymmetrically). -/
theorem c7_swap_symmetric_amended
    (rules : RULE_QUERY) (a b : BOARD_CONNECTED_ITEM) (aLayer : PCB_LAYER_ID)
    (bd : BOARD) (ncA ncB : NETCLASS)
    (hba : a.board = some bd) (hbb : b.board = some bd)
    (hncA : GetEffectiveNetclass a = some ncA)
    (hncB : GetEffectiveNetclass b = some ncB)
    (hovA : a.localClearanceOverrides ≤ 0)
    (hovB : b.localClearanceOverrides ≤ 0)
    (hruleAB : rules a (some (toBoardItem b)) aLayer = none)
    (hruleBA : rules b (some (toBoardItem a)) aLayer = none)
    (hedge : a.m_Layer = PCB_LAYER_ID.Edge_Cuts ↔ b.m_Layer = PCB_LAYER_ID.Edge_Cuts) :
    GetClearance rules a aLayer (some (toBoardItem b)) =
      GetClearance rules b aLayer (some (toBoardItem a)) := by
  have h1 := getClearance_accum_eval rules a aLayer bd ncA (some (b, ncB)) hba hncA
    hovA (fun p hp => by injection hp with h; rw [← h]; exact ⟨hncB, hovB⟩) hruleAB
  have h2 := getClearance_accum_eval rules b aLayer bd ncB (some (a, ncA)) hbb hncB
    hovB (fun p hp => by injection hp with h; rw [← h]; exact ⟨hncA, hovA⟩) hruleBA
  simp only [Option.map_some', Option.elim_some] at h1 h2
  dsimp only at h1 h2
  rw [h1, h2]
  simp only [Option.some.injEq]
  by_cases hA : a.m_Layer = PCB_LAYER_ID.Edge_Cuts
  · have hBe := hedge.mp hA
    rw [if_pos hBe, if_pos hA]
    omega
  · have hBe : ¬ b.m_Layer = PCB_LAYER_ID.Edge_Cuts := fun hh => hA (hedge.mpr hh)
    rw [if_neg hBe, if_neg hA]
    omega

/-- Witness for C7 (amended): `exItemA` and a variant of `exItemB` moved off
`Edge_Cuts` resolve to the same clearance in both orders. -/
theorem c7_swap_symmetric_amended_witness :
    GetClearance noRules exItemA (PCB_LAYER_ID.other 0)
      (some (toBoardItem { exItemB with m_Layer := PCB_LAYER_ID.other 1 })) =
    GetClearance noRules { exItemB with m_Layer := PCB_LAYER_ID.other 1 }
      (PCB_LAYER_ID.other 0) (some (toBoardItem exItemA)) :=
  c7_swap_symmetric_amended noRules exItemA
    { exItemB with m_Layer := PCB_LAYER_ID.other 1 } (PCB_LAYER_ID.other 0)
    exBoard { clearance := 200 } { clearance := 180 }
    rfl rfl rfl rfl (by decide) (by decide) rfl rfl (by decide)

/-- C10: when the second item passed to `GetClearance` is not a net-bearing
connected item (the downcast fails), it contributes no local override, no
local clearance and no netclass to the result — the accumulated value below
has no term for it — yet its layer still triggers the board copper-edge
candidate when that layer is `Edge_Cuts`. -/
theorem c10_nonconnected_second_item
    (rules : RULE_QUERY) (a : BOARD_CONNECTED_ITEM) (aLayer lay : PCB_LAYER_ID)
    (bd : BOARD) (nc : NETCLASS)
    (hb : a.board = some bd)
    (hnc : GetEffectiveNetclass a = some nc)
    (hov : a.localClearanceOverrides ≤ 0)
    (hrule : rules a (some { m_Layer := lay, connected := none }) aLayer = none) :
    GetClearance rules a aLayer (some { m_Layer := lay, connected := none }) =
      some (max (max (max (max 0 bd.designSettings.m_MinClearance) nc.clearance)
            (if lay = PCB_LAYER_ID.Edge_Cuts
             then bd.designSettings.m_CopperEdgeClearance else 0))
          a.localClearance) := by
  unfold GetClearance
  simp only [Option.some_bind, hb, GetRuleClearance, hrule, hnc, bump_eq_max]
  by_cases hL : lay = PCB_LAYER_ID.Edge_Cuts <;>
    simp only [hL, eq_self_iff_true, true_and, false_and, if_true, if_false] <;>
    split_ifs <;> simp only [Option.some.injEq] <;> omega

/-- Witness for C10: a bare `Edge_Cuts` board item (no connected capability)
as second item pulls in the copper-edge clearance 250. -/
theorem c10_nonconnected_second_item_witness :
    GetClearance noRules exItemA (PCB_LAYER_ID.other 0)
      (some { m_Layer := PCB_LAYER_ID.Edge_Cuts, connected := none }) =
      some (max (max (max (max 0 exBoard.designSettings.m_MinClearance)
        (200 : Int))
        (if PCB_LAYER_ID.Edge_Cuts = PCB_LAYER_ID.Edge_Cuts
         then exBoard.designSettings.m_CopperEdgeClearance else 0))
      exItemA.localClearance) :=
  c10_nonconnected_second_item noRules exItemA (PCB_LAYER_ID.other 0)
    PCB_LAYER_ID.Edge_Cuts exBoard { clearance := 200 } rfl rfl (by decide) rfl

theorem getEffectiveNetclass_minBoard_irrel (i : BOARD_CONNECTED_ITEM)
    (ds : BOARD_DESIGN_SETTINGS) (f : Int → Option NETINFO_ITEM) (m m2 : Int) :
    GetEffectiveNetclass (withBoard (minBoard ds f m2) i) =
      GetEffectiveNetclass (withBoard (minBoard ds f m) i) := by
  unfold withBoard minBoard GetEffectiveNetclass GetNetClass
  dsimp only
  rcases i.m_netinfo with _ | ni
  · rfl
  · by_cases h0 : ni.net = 0 <;> simp only [h0, if_true, if_false, eq_self_iff_true]
    · rfl
    · cases ni.netClassRef <;> rfl

/-- C8: for every item pair and layer, and every two values `m1 ≤ m2` of the
board minimum clearance with all other state equal (same items, same
registry, same rule answers), the `GetClearance` result under `m2` is at
least the result under `m1`; and whenever a strictly positive local override
or a matching rule determined the result, the two results are equal. -/
theorem c8_board_min_monotone
    (rules : RULE_QUERY) (aLayer : PCB_LAYER_ID)
    (ds : BOARD_DESIGN_SETTINGS) (m1 m2 : Int) (f : Int → Option NETINFO_ITEM)
    (a0 : BOARD_CONNECTED_ITEM) (nc : NETCLASS)
    (bPack : Option (BOARD_CONNECTED_ITEM × NETCLASS))
    (hmin : m1 ≤ m2)
    (hnc : GetEffectiveNetclass (withBoard (minBoard ds f m1) a0) = some nc)
    (hB : ∀ p, bPack = some p →
      GetEffectiveNetclass (withBoard (minBoard ds f m1) p.1) = some p.2)
    (hrules : rules (withBoard (minBoard ds f m1) a0)
        (packItem (minBoard ds f m1) bPack) aLayer =
      rules (withBoard (minBoard ds f m2) a0)
        (packItem (minBoard ds f m2) bPack) aLayer) :
    (∀ v1 v2,
      GetClearance rules (withBoard (minBoard ds f m1) a0) aLayer
        (packItem (minBoard ds f m1) bPack) = some v1 →
      GetClearance rules (withBoard (minBoard ds f m2) a0) aLayer
        (packItem (minBoard ds f m2) bPack) = some v2 →
      v1 ≤ v2) ∧
    ((0 < max a0.localClearanceOverrides
        (Option.elim bPack 0 (fun p => (p.1).localClearanceOverrides)) ∨
      rules (withBoard (minBoard ds f m1) a0)
        (packItem (minBoard ds f m1) bPack) aLayer ≠ none) →
      GetClearance rules (withBoard (minBoard ds f m1) a0) aLayer
        (packItem (minBoard ds f m1) bPack) =
      GetClearance rules (withBoard (minBoard ds f m2) a0) aLayer
        (packItem (minBoard ds f m2) bPack)) := by
  rcases bPack with _ | ⟨s0, snc⟩
  · by_cases hov : 0 < max a0.localClearanceOverrides
        (Option.elim (none : Option (BOARD_CONNECTED_ITEM × NETCLASS)) 0
          (fun p => (p.1).localClearanceOverrides))
    · have hov2 : 0 < a0.localClearanceOverrides := by
        simp only [Option.elim_none] at hov
        omega
      have e1 := getClearance_override_eval rules (withBoard (minBoard ds f m1) a0)
        aLayer (minBoard ds f m1) (packItem (minBoard ds f m1) none) rfl
        (by dsimp only [packItem, withBoard, Option.map_none', Option.none_bind,
              Option.elim_none]
            omega)
      have e2 := getClearance_override_eval rules (withBoard (minBoard ds f m2) a0)
        aLayer (minBoard ds f m2) (packItem (minBoard ds f m2) none) rfl
        (by dsimp only [packItem, withBoard, Option.map_none', Option.none_bind,
              Option.elim_none]
            omega)
      constructor
      · intro v1 v2 h1 h2
        rw [e1] at h1
        rw [e2] at h2
        simp only [Option.some.injEq] at h1 h2
        dsimp only [packItem, withBoard, Option.map_none', Option.none_bind,
          Option.elim_none] at h1 h2
        omega
      · intro _
        rw [e1, e2]
        dsimp only [packItem, withBoard, Option.map_none', Option.none_bind,
          Option.elim_none]
    · have hovA : a0.localClearanceOverrides ≤ 0 := by
        simp only [Option.elim_none] at hov
        omega
      rcases hr : rules (withBoard (minBoard ds f m1) a0)
          (packItem (minBoard ds f m1) none) aLayer with _ | c
      · have hr2 : rules (withBoard (minBoard ds f m2) a0)
            (packItem (minBoard ds f m2) none) aLayer = none := by
          rw [← hrules]
          exact hr
        have hnc2 : GetEffectiveNetclass (withBoard (minBoard ds f m2) a0) =
            some nc :=
          (getEffectiveNetclass_minBoard_irrel a0 ds f m1 m2).trans hnc
        have e1 := getClearance_accum_eval rules (withBoard (minBoard ds f m1) a0)
          aLayer (minBoard ds f m1) nc none rfl hnc hovA
          (fun p hp => Option.noConfusion hp) hr
        have e2 := getClearance_accum_eval rules (withBoard (minBoard ds f m2) a0)
          aLayer (minBoard ds f m2) nc none rfl hnc2 hovA
          (fun p hp => Option.noConfusion hp) hr2
        simp only [Option.map_none', Option.elim_none] at e1 e2
        constructor
        · intro v1 v2 h1 h2
          dsimp only [packItem, Option.map_none'] at h1 h2
          rw [e1] at h1
          rw [e2] at h2
          simp only [Option.some.injEq] at h1 h2
          dsimp only [withBoard, minBoard, Option.elim_none] at h1 h2
          omega
        · intro hcase
          rcases hcase with hpos | hrne
          · exact absurd hpos hov
          · exact absurd rfl hrne
      · have hr2 : rules (withBoard (minBoard ds f m2) a0)
            (packItem (minBoard ds f m2) none) aLayer = some c := by
          rw [← hrules]
          exact hr
        have e1 := getClearance_rule_eval rules (withBoard (minBoard ds f m1) a0)
          aLayer (minBoard ds f m1) (packItem (minBoard ds f m1) none) c rfl hovA
          (fun s hs => Option.noConfusion hs) hr
        have e2 := getClearance_rule_eval rules (withBoard (minBoard ds f m2) a0)
          aLayer (minBoard ds f m2) (packItem (minBoard ds f m2) none) c rfl hovA
          (fun s hs => Option.noConfusion hs) hr2
        constructor
        · intro v1 v2 h1 h2
          rw [e1] at h1
          rw [e2] at h2
          simp only [Option.some.injEq] at h1 h2
          omega
        · intro _
          rw [e1, e2]
  · by_cases hov : 0 < max a0.localClearanceOverrides
        (Option.elim (some (s0, snc)) 0 (fun p => (p.1).localClearanceOverrides))
    · have hov2 : 0 < max a0.localClearanceOverrides s0.localClearanceOverrides := by
        dsimp only [Option.elim_some] at hov
        omega
      have e1 := getClearance_override_eval rules (withBoard (minBoard ds f m1) a0)
        aLayer (minBoard ds f m1) (packItem (minBoard ds f m1) (some (s0, snc))) rfl
        (by dsimp only [packItem, withBoard, toBoardItem, Option.map_some',
              Option.some_bind, Option.elim_some]
            omega)
      have e2 := getClearance_override_eval rules (withBoard (minBoard ds f m2) a0)
        aLayer (minBoard ds f m2) (packItem (minBoard ds f m2) (some (s0, snc))) rfl
        (by dsimp only [packItem, withBoard, toBoardItem, Option.map_some',
              Option.some_bind, Option.elim_some]
            omega)
      constructor
      · intro v1 v2 h1 h2
        rw [e1] at h1
        rw [e2] at h2
        simp only [Option.some.injEq] at h1 h2
        dsimp only [packItem, withBoard, toBoardItem, Option.map_some',
          Option.some_bind, Option.elim_some] at h1 h2
        omega
      · intro _
        rw [e1, e2]
        dsimp only [packItem, withBoard, toBoardItem, Option.map_some',
          Option.some_bind, Option.elim_some]
    · have hovA : a0.localClearanceOverrides ≤ 0 := by
        dsimp only [Option.elim_some] at hov
        omega
      have hovS : s0.localClearanceOverrides ≤ 0 := by
        dsimp only [Option.elim_some] at hov
        omega
      have hsnc1 : GetEffectiveNetclass (withBoard (minBoard ds f m1) s0) =
          some snc := hB (s0, snc) rfl
      have hsnc2 : GetEffectiveNetclass (withBoard (minBoard ds f m2) s0) =
          some snc :=
        (getEffectiveNetclass_minBoard_irrel s0 ds f m1 m2).trans hsnc1
      have hnc2 : GetEffectiveNetclass (withBoard (minBoard ds f m2) a0) =
          some nc :=
        (getEffectiveNetclass_minBoard_irrel a0 ds f m1 m2).trans hnc
      rcases hr : rules (withBoard (minBoard ds f m1) a0)
          (packItem (minBoard ds f m1) (some (s0, snc))) aLayer with _ | c
      · have hr2 : rules (withBoard (minBoard ds f m2) a0)
            (packItem (minBoard ds f m2) (some (s0, snc))) aLayer = none := by
          rw [← hrules]
          exact hr
        have e1 := getClearance_accum_eval rules (withBoard (minBoard ds f m1) a0)
          aLayer (minBoard ds f m1) nc (some (withBoard (minBoard ds f m1) s0, snc))
          rfl hnc hovA
          (fun p hp => by
            injection hp with h
            rw [← h]
            exact ⟨hsnc1, hovS⟩) hr
        have e2 := getClearance_accum_eval rules (withBoard (minBoard ds f m2) a0)
          aLayer (minBoard ds f m2) nc (some (withBoard (minBoard ds f m2) s0, snc))
          rfl hnc2 hovA
          (fun p hp => by
            injection hp with h
            rw [← h]
            exact ⟨hsnc2, hovS⟩) hr2
        simp only [Option.map_some', Option.elim_some] at e1 e2
        dsimp only at e1 e2
        constructor
        · intro v1 v2 h1 h2
          dsimp only [packItem, Option.map_some'] at h1 h2
          rw [e1] at h1
          rw [e2] at h2
          simp only [Option.some.injEq, Option.elim_some] at h1 h2
          dsimp only [withBoard, minBoard] at h1 h2
          by_cases hL : s0.m_Layer = PCB_LAYER_ID.Edge_Cuts <;>
            simp only [hL, eq_self_iff_true, if_true, if_false] at h1 h2 <;>
            omega
        · intro hcase
          rcases hcase with hpos | hrne
          · exact absurd hpos hov
          · exact absurd rfl hrne
      · have hr2 : rules (withBoard (minBoard ds f m2) a0)
            (packItem (minBoard ds f m2) (some (s0, snc))) aLayer = some c := by
          rw [← hrules]
          exact hr
        have e1 := getClearance_rule_eval rules (withBoard (minBoard ds f m1) a0)
          aLayer (minBoard ds f m1) (packItem (minBoard ds f m1) (some (s0, snc)))
          c rfl hovA
          (fun s hs => by
            injection hs with h
            rw [← h]
            exact hovS) hr
        have e2 := getClearance_rule_eval rules (withBoard (minBoard ds f m2) a0)
          aLayer (minBoard ds f m2) (packItem (minBoard ds f m2) (some (s0, snc)))
          c rfl hovA
          (fun s hs => by
            injection hs with h
            rw [← h]
            exact hovS) hr2
        constructor
        · intro v1 v2 h1 h2
          rw [e1] at h1
          rw [e2] at h2
          simp only [Option.some.injEq] at h1 h2
          omega
        · intro _
          rw [e1, e2]

/-- Witness for C8: raising the board minimum from 150 (result 200, the
netclass clearance) to 300 (result 300, the board minimum) does not decrease
the resolved clearance. -/
theorem c8_board_min_monotone_witness :
    GetClearance noRules (withBoard (minBoard exSettings (fun _ => none) 150) exItemA)
      (PCB_LAYER_ID.other 0)
      (packItem (minBoard exSettings (fun _ => none) 150) none) = some 200 ∧
    GetClearance noRules (withBoard (minBoard exSettings (fun _ => none) 300) exItemA)
      (PCB_LAYER_ID.other 0)
      (packItem (minBoard exSettings (fun _ => none) 300) none) = some 300 ∧
    (200 : Int) ≤ 300 := by
  refine ⟨rfl, rfl, ?_⟩
  exact (c8_board_min_monotone noRules (PCB_LAYER_ID.other 0) exSettings 150 300
    (fun _ => none) exItemA { clearance := 200 } none (by decide) rfl
    (fun p hp => Option.noConfusion hp) rfl).1 200 300 rfl rfl
